import Mathlib

/-!
Verification of the Chameleon browser-extension deterministic generation core.

Shallow embedding of:
  * `SeedManager` (src/spoofingengine.js, second module): FNV-1a based
    deterministic random field and the derived helpers, plus the stateful
    seed lifecycle (session seed, per-domain in-memory map with eviction).
  * `SpoofingEngine` (src/spoofingengine.js, first module): OS / hardware
    selection, CPU-tier core counts, vendor lookup.
  * `CanvasInterceptor` (src/interceptors/screeninterceptor.js, third
    module): Sobel edge detection and edge-gated pixel noise.

Machine integers are modelled as `Nat` / `Int` with explicit `% 2^32`
(Math.imul, `>>> 0`, `& `-coercion); JavaScript number arithmetic on the
noise path is modelled over `ℚ` (exact real arithmetic; the source uses
IEEE-754 doubles, whose rounding never crosses any of the comparison
thresholds appearing below).  JavaScript `null` / `undefined` results are
modelled as `Option.none`; out-of-range typed-array reads (which yield
`undefined`, poisoning subsequent arithmetic into `NaN`) are modelled with
`Option` propagation.
-/

/-- UTF-16 code units of a string, as read by JavaScript `charCodeAt`.
All strings manipulated by the source are ASCII, for which Lean chars and
UTF-16 code units agree one-to-one. -/
def codeUnits (s : String) : List ℕ :=
  s.data.map Char.toNat

/-- Does `hay` start with `need`?  (List-level helper for `jsIncludes`.) -/
def leadsWith : List Char → List Char → Bool
  | _, [] => true
  | [], _ :: _ => false
  | c :: cs, d :: ds => c == d && leadsWith cs ds

/-- Occurrence of `need` as a contiguous run inside `hay`. -/
def containsSeq (hay need : List Char) : Bool :=
  match hay with
  | [] => need.isEmpty
  | _ :: t => leadsWith hay need || containsSeq t need

/-- JavaScript `String.prototype.includes`. -/
def jsIncludes (s sub : String) : Bool :=
  containsSeq s.data sub.data

/-- JavaScript `String.prototype.toLowerCase` (ASCII range; all CPU /
OS strings in the source are ASCII). -/
def jsToLower (s : String) : String :=
  String.mk (s.data.map Char.toLower)

/-- Hex digit characters used by JavaScript `Number.prototype.toString(16)`:
0-9 then lowercase a-f. -/
def hexDigitChar (n : ℕ) : Char :=
  if n < 10 then Char.ofNat (48 + n) else Char.ofNat (87 + n)

/-- Hex digits of `n` most-significant first, with enough fuel; mirrors
`n.toString(16)`.  The source only ever prints 32-bit values
(`hash >>> 0`, `Uint32Array` entries), which have at most 8 hex digits,
so fuel 8 covers the whole reachable domain. -/
def natToHexAux : ℕ → ℕ → List Char
  | 0, _ => []
  | fuel + 1, n =>
    if n < 16 then [hexDigitChar n]
    else natToHexAux fuel (n / 16) ++ [hexDigitChar (n % 16)]

/-- `n.toString(16)` for a 32-bit value `n`. -/
def natToHex32 (n : ℕ) : List Char :=
  natToHexAux 8 n

/-- JavaScript `.padStart(8, "0")`. -/
def padStart8 (l : List Char) : List Char :=
  List.replicate (8 - l.length) '0' ++ l

/-- Numeric value of one hex digit character (0-9, a-f), as decoded by
`parseInt(_, 16)`. -/
def parseHexDigit (c : Char) : ℕ :=
  if 97 ≤ c.toNat then c.toNat - 87 else c.toNat - 48

/-- `parseInt(s, 16)` on a string of valid hex digits. -/
def parseHex (l : List Char) : ℕ :=
  l.foldl (fun a c => a * 16 + parseHexDigit c) 0

/-- One step of the FNV-1a loop:
`hash ^= str.charCodeAt(i); hash = Math.imul(hash, FNV_PRIME)`.
The JavaScript value is a signed 32-bit pattern; we carry its unsigned
residue, which `Math.imul` updates as multiplication modulo `2^32`. -/
def SeedManager.fnv1aStep (h c : ℕ) : ℕ :=
  ((h ^^^ c) * 16777619) % 4294967296

/-- The 32-bit FNV-1a hash value `hash >>> 0` computed by
`SeedManager.hash` before hex formatting (offset basis 2166136261,
prime 16777619). -/
def SeedManager.fnv1a (codes : List ℕ) : ℕ :=
  codes.foldl SeedManager.fnv1aStep 2166136261

/-- `SeedManager.hash`: FNV-1a over the code units, then
`(hash >>> 0).toString(16).padStart(8, "0")`. -/
def SeedManager.hash (s : String) : String :=
  String.mk (padStart8 (natToHex32 (SeedManager.fnv1a (codeUnits s))))

/-- Value returned by `SeedManager.random(index)` once the session seed is
fixed: `parseInt(this.hash(seed + "-" + index).substr(0, 8), 16) / 0xFFFFFFFF`.
The stateful `SeedManager.random` below first resolves the session seed via
`getSeed` and then computes exactly this value (see `random_state_eq`). -/
def SeedManager.randomValue (seed : String) (index : ℕ) : ℚ :=
  (parseHex ((SeedManager.hash (seed ++ "-" ++ Nat.repr index)).data.take 8) : ℚ)
    / 4294967295

/-- `SeedManager.randomInt(min, max, index)`:
`Math.floor(rand * (max - min + 1)) + min`. -/
def SeedManager.randomInt (seed : String) (min max : ℤ) (index : ℕ) : ℤ :=
  ⌊SeedManager.randomValue seed index * ((max - min + 1 : ℤ) : ℚ)⌋ + min

/-- `SeedManager.randomChoice(array, index)`: `null` on a missing or empty
array, otherwise `array[this.randomInt(0, array.length - 1, index)]`.
The element access is modelled with `List.get?` because an index equal to
`array.length` (possible only when the draw is exactly 1) yields
`undefined` in JavaScript. -/
def SeedManager.randomChoice {α : Type} (seed : String) (array : List α)
    (index : ℕ) : Option α :=
  if array.isEmpty then none
  else array.get? (SeedManager.randomInt seed 0 ((array.length : ℤ) - 1) index).toNat

/-- The `for` loop of `randomWeightedChoice`: walk the items, subtracting
`weights[i]` from the running value and returning the first item that drives
it to `≤ 0`.  A missing weight (`weights` shorter than `items`) makes the
running value `NaN` in JavaScript, after which every comparison is false;
`none` as the running value models that poisoned state. -/
def SeedManager.pickLoop {α : Type} : List α → List ℚ → Option ℚ → Option α
  | [], _, _ => none
  | x :: xs, ws, r =>
    let r1 : Option ℚ :=
      match r, ws.head? with
      | some v, some w => some (v - w)
      | _, _ => none
    match r1 with
    | some v => if v ≤ 0 then some x else SeedManager.pickLoop xs ws.tail r1
    | none => SeedManager.pickLoop xs ws.tail none

/-- `SeedManager.randomWeightedChoice(items, weights, index)`: `null` for a
missing/empty item list; otherwise scale one draw by the total weight, run
the subtraction loop, and fall back to the last item when the loop ends. -/
def SeedManager.randomWeightedChoice {α : Type} (seed : String) (items : List α)
    (weights : List ℚ) (index : ℕ) : Option α :=
  if items.isEmpty then none
  else
    let totalWeight := weights.foldl (· + ·) 0
    let r := SeedManager.randomValue seed index * totalWeight
    match SeedManager.pickLoop items weights (some r) with
    | some x => some x
    | none => items.getLast?

theorem parseHexDigit_hexDigitChar : ∀ n : ℕ, n < 16 →
    parseHexDigit (hexDigitChar n) = n := by
  decide

theorem parseHex_append (l1 l2 : List Char) :
    parseHex (l1 ++ l2) =
      parseHex l1 * 16 ^ l2.length + parseHex l2 := by
  induction l2 using List.reverseRecOn with
  | nil => simp [parseHex]
  | append_singleton t c ih =>
    rw [show l1 ++ (t ++ [c]) = (l1 ++ t) ++ [c] by simp]
    simp only [parseHex, List.foldl_append, List.foldl_cons, List.foldl_nil] at *
    rw [ih, List.length_append, List.length_singleton]
    ring

theorem parseHex_natToHexAux : ∀ (fuel n : ℕ), n < 16 ^ fuel →
    parseHex (natToHexAux fuel n) = n := by
  intro fuel
  induction fuel with
  | zero =>
    intro n h
    norm_num at h
    simp [natToHexAux, parseHex, h]
  | succ f ih =>
    intro n h
    rw [natToHexAux]
    by_cases hn : n < 16
    · simp only [hn, if_true]
      simp [parseHex, parseHexDigit_hexDigitChar n hn]
    · simp only [hn, if_false]
      rw [parseHex_append]
      have hdiv : n / 16 < 16 ^ f := by
        rw [pow_succ] at h
        omega
      rw [ih _ hdiv]
      have h16 : n % 16 < 16 := Nat.mod_lt _ (by norm_num)
      simp [parseHex, parseHexDigit_hexDigitChar _ h16]
      omega

theorem natToHexAux_length_le : ∀ (fuel n : ℕ),
    (natToHexAux fuel n).length ≤ fuel := by
  intro fuel
  induction fuel with
  | zero => intro n; simp [natToHexAux]
  | succ f ih =>
    intro n
    rw [natToHexAux]
    by_cases hn : n < 16
    · simp [hn]
    · simp only [hn, if_false, List.length_append]
      have := ih (n / 16)
      simp
      omega

theorem parseHex_padStart8 (l : List Char) :
    parseHex (padStart8 l) = parseHex l := by
  rw [padStart8, parseHex_append]
  have hz : ∀ k : ℕ, parseHex (List.replicate k '0') = 0 := by
    intro k
    induction k with
    | zero => simp [parseHex]
    | succ m ih =>
      rw [List.replicate_succ]
      simpa [parseHex, parseHexDigit] using ih
  rw [hz]
  ring

theorem fnv1a_lt (codes : List ℕ) : SeedManager.fnv1a codes < 4294967296 := by
  rw [SeedManager.fnv1a]
  induction codes using List.reverseRecOn with
  | nil => norm_num
  | append_singleton t c _ =>
    rw [List.foldl_append, List.foldl_cons, List.foldl_nil]
    exact Nat.mod_lt _ (by norm_num)

theorem padStart8_length_of_le {l : List Char} (h : l.length ≤ 8) :
    (padStart8 l).length = 8 := by
  rw [padStart8, List.length_append, List.length_replicate]
  omega

/-- The hex print / parse round trip inside `SeedManager.random`: the hash
string has exactly 8 hex characters, and parsing its first 8 characters
recovers the 32-bit FNV-1a value. -/
theorem randomValue_eq (seed : String) (index : ℕ) :
    SeedManager.randomValue seed index =
      (SeedManager.fnv1a (codeUnits (seed ++ "-" ++ Nat.repr index)) : ℚ)
        / 4294967295 := by
  rw [SeedManager.randomValue, SeedManager.hash]
  set n := SeedManager.fnv1a (codeUnits (seed ++ "-" ++ Nat.repr index)) with hn
  have hlt : n < 4294967296 := fnv1a_lt _
  have hlen : (natToHex32 n).length ≤ 8 := natToHexAux_length_le 8 n
  have hfull : (padStart8 (natToHex32 n)).length = 8 := padStart8_length_of_le hlen
  have hdata : (String.mk (padStart8 (natToHex32 n))).data = padStart8 (natToHex32 n) := rfl
  rw [hdata, List.take_of_length_le (le_of_eq hfull), parseHex_padStart8]
  rw [natToHex32, parseHex_natToHexAux 8 n (by norm_num [hlt])]

theorem randomValue_nonneg (seed : String) (index : ℕ) :
    0 ≤ SeedManager.randomValue seed index := by
  rw [randomValue_eq]
  positivity

theorem randomValue_le_one (seed : String) (index : ℕ) :
    SeedManager.randomValue seed index ≤ 1 := by
  rw [randomValue_eq]
  rw [div_le_one (by norm_num)]
  have := fnv1a_lt (codeUnits (seed ++ "-" ++ Nat.repr index))
  exact_mod_cast Nat.le_of_lt_succ this

/-- Mutable state of the `SeedManager` singleton: the cached session seed,
the in-memory `domainSeeds` Map (insertion-ordered key/value list, as
JavaScript Maps are), the current `window.location.hostname`, and a stream
of 32-bit words modelling `crypto.getRandomValues` together with the
position of the next unread word. -/
structure SMState where
  currentSeed : Option String
  domainSeeds : List (String × Option String)
  domain : String
  entropy : ℕ → ℕ
  entropyPos : ℕ

/-- JavaScript `Map.prototype.get`: value of the first (unique) matching
key, `undefined` when absent. -/
def jsMapGet (m : List (String × Option String)) (k : String) :
    Option (Option String) :=
  (m.find? (fun p => p.1 == k)).map Prod.snd

/-- JavaScript `Map.prototype.set`: update in place if the key exists
(keeping its insertion position), otherwise append at the end. -/
def jsMapSet (m : List (String × Option String)) (k : String)
    (v : Option String) : List (String × Option String) :=
  if m.any (fun p => p.1 == k) then
    m.map (fun p => if p.1 == k then (k, v) else p)
  else m ++ [(k, v)]

/-- JavaScript `Map.prototype.delete`. -/
def jsMapDelete (m : List (String × Option String)) (k : String) :
    List (String × Option String) :=
  m.filter (fun p => p.1 != k)

/-- JavaScript truthiness of a string-or-null value (`null`, `undefined`
and the empty string are falsy). -/
def jsTruthy : Option String → Bool
  | none => false
  | some s => s ≠ ""

/-- `SeedManager.storeSeedInMemory`: `domainSeeds.set(domain, currentSeed)`,
then, if the map now has more than 100 entries, delete the first key in
iteration (= insertion) order. -/
def SeedManager.storeSeedInMemory (st : SMState) : SMState :=
  let m := jsMapSet st.domainSeeds st.domain st.currentSeed
  let m1 :=
    if 100 < m.length then
      match m.head? with
      | some p => jsMapDelete m p.1
      | none => m
    else m
  { st with domainSeeds := m1 }

/-- `SeedManager.generateSeed` on the `crypto.getRandomValues` path: draw
eight 32-bit words from the entropy stream, print each as 8 hex characters,
join them into a 64-character seed, cache it as the session seed and store
it in the domain map. -/
def SeedManager.generateSeed (st : SMState) : String × SMState :=
  let words := (List.range 8).map (fun i => st.entropy (st.entropyPos + i) % 4294967296)
  let seed := String.mk (words.map (fun w => padStart8 (natToHex32 w))).flatten
  let st1 : SMState :=
    { st with currentSeed := some seed, entropyPos := st.entropyPos + 8 }
  (seed, SeedManager.storeSeedInMemory st1)

/-- `SeedManager.getSeed`: return the cached session seed when truthy;
otherwise adopt the seed remembered for the current domain when truthy;
otherwise generate a fresh one. -/
def SeedManager.getSeed (st : SMState) : String × SMState :=
  if jsTruthy st.currentSeed then (st.currentSeed.getD "", st)
  else
    let fetched : Option String := (jsMapGet st.domainSeeds st.domain).bind id
    let st1 : SMState := { st with currentSeed := fetched }
    if jsTruthy fetched then (fetched.getD "", st1)
    else SeedManager.generateSeed st1

/-- The stateful `SeedManager.random(index)`: resolve the session seed via
`getSeed`, then hash `seed + "-" + index` and normalise (the pure value is
`randomValue`). -/
def SeedManager.random (st : SMState) (index : ℕ) : ℚ × SMState :=
  let r := SeedManager.getSeed st
  (SeedManager.randomValue r.1 index, r.2)

/-- A sequence of `SeedManager.random` calls at the given indices,
threading the singleton state left to right; returns the observed values in
call order together with the final state. -/
def runRandoms (st : SMState) : List ℕ → List ℚ × SMState
  | [] => ([], st)
  | i :: rest =>
    let v := SeedManager.random st i
    let vs := runRandoms v.2 rest
    (v.1 :: vs.1, vs.2)

/-- Nested weighted option tables of an archetype's `hardware` object.
Fields are `Option` because the source guards each with a truthiness check
(`if (hw.cpu) ...`).  RAM keys are numeric (`Object.keys(hw.ram).map(Number)`),
modelled directly as rationals. -/
structure ArchHardware where
  cpu : Option (List (String × ℚ))
  ram : Option (List (ℚ × ℚ))
  gpu : Option (List (String × ℚ))

/-- The archetype fields consumed by the selectors under verification
(`selectOS`, `selectHardware`); the remaining catalog fields (display,
locale, fonts, userAgent) are not involved in any claim and are omitted.
Weighted tables are insertion-ordered key/value lists, matching
`Object.keys` / `Object.values` enumeration order. -/
structure Archetype where
  name : String
  weight : ℚ
  platform : String
  os : List (String × ℚ)
  hardware : ArchHardware

/-- Result of `SpoofingEngine.selectOS`. -/
structure OSInfo where
  name : Option String
  platform : String
deriving DecidableEq

/-- `SpoofingEngine.selectOS`: weighted choice over the archetype's OS
table at index 1; the `platform` field is copied verbatim from the
archetype record. -/
def SpoofingEngine.selectOS (seed : String) (a : Archetype) : OSInfo :=
  { name := SeedManager.randomWeightedChoice seed (a.os.map Prod.fst)
      (a.os.map Prod.snd) 1,
    platform := a.platform }

/-- `SpoofingEngine.getVendor`: fixed lookup on the OS name
(`osName?.includes("macOS")`; a missing name is falsy). -/
def SpoofingEngine.getVendor (osName : Option String) : String :=
  match osName with
  | some s => if jsIncludes s "macOS" then "Apple Computer, Inc." else "Google Inc."
  | none => "Google Inc."

/-- `SpoofingEngine.getCoreCount`: tier dispatch on the lower-cased CPU
string, in source order; the draw-based tiers call `randomChoice` at the
fixed indices 10-14.  A missing or empty CPU string (falsy `!cpu`) yields
4 directly; the Apple-silicon tier yields 8 directly. -/
def SpoofingEngine.getCoreCount (seed : String) (cpu : Option String) : Option ℕ :=
  match cpu with
  | none => some 4
  | some c =>
    if c = "" then some 4
    else
      let l := jsToLower c
      if jsIncludes l "i9" || jsIncludes l "ryzen 9" || jsIncludes l "threadripper" then
        SeedManager.randomChoice seed [16, 20, 24, 32] 10
      else if jsIncludes l "i7" || jsIncludes l "ryzen 7" then
        SeedManager.randomChoice seed [8, 12, 16] 11
      else if jsIncludes l "i5" || jsIncludes l "ryzen 5" then
        SeedManager.randomChoice seed [6, 8, 12] 12
      else if jsIncludes l "i3" || jsIncludes l "ryzen 3" then
        SeedManager.randomChoice seed [4, 6] 13
      else if jsIncludes l "m1" || jsIncludes l "m2" || jsIncludes l "m3" then
        some 8
      else if jsIncludes l "celeron" || jsIncludes l "pentium" then
        SeedManager.randomChoice seed [2, 4] 14
      else some 4

/-- Vendor/model pair produced by `SpoofingEngine.parseGPU`. -/
structure GPUInfo where
  vendor : String
  model : String
deriving DecidableEq

/-- `SpoofingEngine.parseGPU`: first matching vendor substring wins,
default vendor is Intel, the model echoes the whole string. -/
def SpoofingEngine.parseGPU (g : String) : GPUInfo :=
  { vendor :=
      if jsIncludes g "NVIDIA" then "NVIDIA"
      else if jsIncludes g "AMD" then "AMD"
      else if jsIncludes g "Intel" then "Intel"
      else if jsIncludes g "Apple" then "Apple"
      else "Intel",
    model := g }

/-- The `hardware` object assembled by `SpoofingEngine.selectHardware`.
A field is `none` both when its catalog table is absent (the property is
never assigned) and when the weighted choice itself returns `null`; the
two JavaScript states (`undefined` / `null`) are indistinguishable to
every consumer in the source (`hardware.hardwareConcurrency || 4` etc.). -/
structure HardwareProfile where
  cpu : Option String
  hardwareConcurrency : Option ℕ
  deviceMemory : Option ℚ
  gpu : Option GPUInfo
deriving DecidableEq

/-- `SpoofingEngine.selectHardware`: CPU via weighted choice at index 2
followed by `getCoreCount`, RAM at index 3, GPU at index 4 followed by
`parseGPU`. -/
def SpoofingEngine.selectHardware (seed : String) (a : Archetype) : HardwareProfile :=
  let cpu : Option String :=
    match a.hardware.cpu with
    | some tbl => SeedManager.randomWeightedChoice seed (tbl.map Prod.fst) (tbl.map Prod.snd) 2
    | none => none
  { cpu := cpu,
    hardwareConcurrency :=
      match a.hardware.cpu with
      | some _ => SpoofingEngine.getCoreCount seed cpu
      | none => none,
    deviceMemory :=
      match a.hardware.ram with
      | some tbl => SeedManager.randomWeightedChoice seed (tbl.map Prod.fst) (tbl.map Prod.snd) 3
      | none => none,
    gpu :=
      match a.hardware.gpu with
      | some tbl =>
        (SeedManager.randomWeightedChoice seed (tbl.map Prod.fst) (tbl.map Prod.snd) 4).map
          SpoofingEngine.parseGPU
      | none => none }

/-- The single built-in fallback archetype of
`SpoofingEngine.getDefaultProfiles`, restricted to the fields modelled
here. -/
def SpoofingEngine.defaultArchetype : Archetype :=
  { name := "Default Windows PC",
    weight := 1,
    platform := "Win32",
    os := [("Windows 11", 100)],
    hardware :=
      { cpu := some [("Intel Core i5", 100)],
        ram := some [(16, 100)],
        gpu := some [("Intel Iris Xe Graphics", 100)] } }

/-- A canvas `ImageData` value: declared dimensions plus the flat RGBA byte
sequence (row-major, 4 bytes per pixel). -/
structure ImageData where
  width : ℕ
  height : ℕ
  data : List ℕ
deriving DecidableEq

/-- Signed 32-bit coercion (`| 0` / `& `-style) of an integer: the unique
representative in `[-2^31, 2^31)` congruent modulo `2^32`. -/
def toInt32 (z : ℤ) : ℤ :=
  (z + 2147483648) % 4294967296 - 2147483648

/-- One step of `CanvasInterceptor.hashCode`:
`hash = ((hash << 5) - hash) + char; hash = hash & hash` — the shift is a
32-bit operation and the `& `-step coerces the sum back to int32. -/
def CanvasInterceptor.hashCodeStep (h : ℤ) (c : ℕ) : ℤ :=
  toInt32 (toInt32 (h * 32) - h + c)

/-- `CanvasInterceptor.hashCode`: the int32 mixing loop over the code
units, then `Math.abs`. -/
def CanvasInterceptor.hashCode (codes : List ℕ) : ℕ :=
  (codes.foldl CanvasInterceptor.hashCodeStep 0).natAbs

/-- `CanvasInterceptor.seededRandom(x, y, channel)`:
`hashCode(seed + "-" + x + "-" + y + "-" + channel) % 1000 / 1000`. -/
def CanvasInterceptor.seededRandom (seed : String) (x y channel : ℕ) : ℚ :=
  ((CanvasInterceptor.hashCode
      (codeUnits (seed ++ "-" ++ Nat.repr x ++ "-" ++ Nat.repr y ++ "-" ++
        Nat.repr channel)) % 1000 : ℕ) : ℚ) / 1000

/-- `CanvasInterceptor.noiseLevel = 0.002`. -/
def CanvasInterceptor.noiseLevel : ℚ := 2 / 1000

/-- The additive perturbation applied to one channel byte of an edge pixel:
`(seededRandom(x, y, channel) - 0.5) * 255 * noiseLevel`. -/
def CanvasInterceptor.noiseAt (seed : String) (x y channel : ℕ) : ℚ :=
  (CanvasInterceptor.seededRandom seed x y channel - 1 / 2) * 255 *
    CanvasInterceptor.noiseLevel

/-- Rounding applied when a JavaScript number is stored into a
`Uint8ClampedArray` slot: nearest integer, ties to even. -/
def roundTiesToEven (q : ℚ) : ℤ :=
  if q - ⌊q⌋ < 1 / 2 then ⌊q⌋
  else if 1 / 2 < q - ⌊q⌋ then ⌊q⌋ + 1
  else if ⌊q⌋ % 2 = 0 then ⌊q⌋ else ⌊q⌋ + 1

/-- Storing `Math.max(0, Math.min(255, q))` into a `Uint8ClampedArray`
slot: clamp, then round to nearest with ties to even. -/
def jsByteWrite (q : ℚ) : ℕ :=
  (roundTiesToEven (max 0 (min 255 q))).toNat

/-- Luminance of the pixel whose R byte sits at `base`:
`data[base]*0.299 + data[base+1]*0.587 + data[base+2]*0.114`.  A read past
the end of the typed array yields `undefined` and turns the sum into `NaN`,
modelled by `none`. -/
def CanvasInterceptor.lumAt (data : List ℕ) (base : ℕ) : Option ℚ :=
  match data.get? base, data.get? (base + 1), data.get? (base + 2) with
  | some r, some g, some b =>
    some ((r : ℚ) * (299 / 1000) + (g : ℚ) * (587 / 1000) + (b : ℚ) * (114 / 1000))
  | _, _, _ => none

/-- Horizontal Sobel kernel, indexed by `(ky+1)*3 + (kx+1)`. -/
def CanvasInterceptor.sobelX : List ℤ := [-1, 0, 1, -2, 0, 2, -1, 0, 1]

/-- Vertical Sobel kernel, indexed by `(ky+1)*3 + (kx+1)`. -/
def CanvasInterceptor.sobelY : List ℤ := [-1, -2, -1, 0, 0, 0, 1, 2, 1]

/-- The two Sobel accumulators (`pixelX`, `pixelY`) at interior pixel
`(x, y)`: sum over the 9 kernel positions `k` (with `ky = k/3 - 1`,
`kx = k%3 - 1`) of the neighbour luminance times the kernel coefficient.
`none` (NaN) as soon as any neighbour read is out of bounds. -/
def CanvasInterceptor.gradAt (img : ImageData) (x y : ℕ) : Option (ℚ × ℚ) :=
  (List.range 9).foldl
    (fun acc k =>
      match acc,
        CanvasInterceptor.lumAt img.data
          (((y + k / 3 - 1) * img.width + (x + k % 3 - 1)) * 4) with
      | some pq, some g =>
        some (pq.1 + g * ((CanvasInterceptor.sobelX.getD k 0 : ℤ) : ℚ),
              pq.2 + g * ((CanvasInterceptor.sobelY.getD k 0 : ℤ) : ℚ))
      | _, _ => none)
    (some (0, 0))

/-- Edge classification of an interior pixel: the source compares
`Math.sqrt(pixelX^2 + pixelY^2) > 30`, which over nonnegative reals is
equivalent to `pixelX^2 + pixelY^2 > 900`; a NaN magnitude compares
false. -/
def CanvasInterceptor.isEdge (img : ImageData) (x y : ℕ) : Bool :=
  match CanvasInterceptor.gradAt img x y with
  | some pq => decide (900 < pq.1 * pq.1 + pq.2 * pq.2)
  | none => false

/-- `CanvasInterceptor.detectEdges`: a `width*height` array, zero
everywhere except at interior pixels (`1 ≤ x ≤ width-2`,
`1 ≤ y ≤ height-2`) whose gradient magnitude exceeds the threshold, which
hold 1.  The double loop of the source writes cell `y*width + x` exactly
once, so it equals this index-wise map with `x = i % width`,
`y = i / width`. -/
def CanvasInterceptor.detectEdges (img : ImageData) : List ℕ :=
  (List.range (img.width * img.height)).map (fun i =>
    let x := i % img.width
    let y := i / img.width
    if 1 ≤ x ∧ x + 1 < img.width ∧ 1 ≤ y ∧ y + 1 < img.height then
      (if CanvasInterceptor.isEdge img x y then 1 else 0)
    else 0)

/-- `CanvasInterceptor.applyEdgeNoise`: compute the edge map, then, for
every edge pixel, add the deterministic noise to its R, G and B bytes
(clamped and stored back into the `Uint8ClampedArray`).  The source's
in-place double loop writes byte `idx*4 + channel` (`channel < 3`,
`edges[idx] === 1`) exactly once and never reads `data` after the edge map
is built, so it equals this index-wise map; out-of-range writes on a typed
array are silently dropped, which the map over `data.length` positions
reproduces.  The returned object is `imageData` itself — reference
semantics are modelled separately by `applyEdgeNoiseRef`. -/
def CanvasInterceptor.applyEdgeNoise (seed : String) (img : ImageData) : ImageData :=
  let edges := CanvasInterceptor.detectEdges img
  { img with
    data :=
      (List.range img.data.length).map (fun j =>
        let b := img.data.getD j 0
        let idx := j / 4
        if edges.get? idx = some 1 ∧ j % 4 < 3 then
          jsByteWrite ((b : ℚ) +
            CanvasInterceptor.noiseAt seed (idx % img.width) (idx / img.width) (j % 4))
        else b) }

/-- Reference semantics of a call to `applyEdgeNoise`: the heap holds the
live `ImageData` objects (a reference is an index), the call overwrites the
referenced object in place and returns the very same reference
(`return imageData` — the source never allocates a copy). -/
def CanvasInterceptor.applyEdgeNoiseRef (seed : String) (heap : List ImageData)
    (r : ℕ) : List ImageData × ℕ :=
  match heap.get? r with
  | some img => (heap.set r (CanvasInterceptor.applyEdgeNoise seed img), r)
  | none => (heap, r)

/-- `applyEdgeNoise` together with the diagnostics it reports: the body of
`applyEdgeNoise` / `detectEdges` contains no buffer-dimension check and no
`console.warn` / `console.error` call, so the emitted diagnostic list is
empty on every input, well-formed or not. -/
def CanvasInterceptor.applyEdgeNoiseWithDiagnostics (seed : String)
    (img : ImageData) : ImageData × List String :=
  (CanvasInterceptor.applyEdgeNoise seed img, [])

theorem seededRandom_nonneg (seed : String) (x y c : ℕ) :
    0 ≤ CanvasInterceptor.seededRandom seed x y c := by
  rw [CanvasInterceptor.seededRandom]
  positivity

theorem seededRandom_le (seed : String) (x y c : ℕ) :
    CanvasInterceptor.seededRandom seed x y c ≤ 999 / 1000 := by
  rw [CanvasInterceptor.seededRandom]
  rw [div_le_div_iff₀ (by norm_num) (by norm_num)]
  have h : CanvasInterceptor.hashCode
      (codeUnits (seed ++ "-" ++ Nat.repr x ++ "-" ++ Nat.repr y ++ "-" ++
        Nat.repr c)) % 1000 ≤ 999 :=
    Nat.le_of_lt_succ (Nat.mod_lt _ (by norm_num))
  have h2 : ((CanvasInterceptor.hashCode
      (codeUnits (seed ++ "-" ++ Nat.repr x ++ "-" ++ Nat.repr y ++ "-" ++
        Nat.repr c)) % 1000 : ℕ) : ℚ) ≤ 999 := by exact_mod_cast h
  nlinarith

theorem noiseAt_abs_le (seed : String) (x y c : ℕ) :
    |CanvasInterceptor.noiseAt seed x y c| ≤ 51 / 200 := by
  have h0 := seededRandom_nonneg seed x y c
  have h1 := seededRandom_le seed x y c
  rw [CanvasInterceptor.noiseAt, CanvasInterceptor.noiseLevel, abs_le]
  constructor <;> nlinarith

theorem roundTiesToEven_int_add (n : ℤ) (δ : ℚ) (h : |δ| < 1 / 2) :
    roundTiesToEven ((n : ℚ) + δ) = n := by
  rw [abs_lt] at h
  rcases le_or_lt 0 δ with hd | hd
  · have hfz : ⌊δ⌋ = 0 := Int.floor_eq_zero_iff.mpr ⟨hd, by linarith⟩
    have hf : ⌊(n : ℚ) + δ⌋ = n := by rw [Int.floor_int_add, hfz, add_zero]
    have hfrac : (n : ℚ) + δ - (⌊(n : ℚ) + δ⌋ : ℤ) = δ := by
      rw [hf]; ring
    rw [roundTiesToEven, hfrac, if_pos (by linarith), hf]
  · have hfz : ⌊δ⌋ = -1 := by
      rw [Int.floor_eq_iff (α := ℚ) (z := -1)]
      constructor
      · push_cast; linarith
      · push_cast; linarith
    have hf : ⌊(n : ℚ) + δ⌋ = n - 1 := by rw [Int.floor_int_add, hfz]; ring
    have hfrac : (n : ℚ) + δ - (⌊(n : ℚ) + δ⌋ : ℤ) = δ + 1 := by
      rw [hf]; push_cast; ring
    rw [roundTiesToEven, hfrac, if_neg (by linarith), if_pos (by linarith), hf]
    ring

theorem jsByteWrite_int_add (b : ℕ) (δ : ℚ) (hb : b ≤ 255)
    (hd : |δ| ≤ 51 / 200) :
    jsByteWrite ((b : ℚ) + δ) = b := by
  have habs := hd
  rw [abs_le] at hd
  have hdlt : |δ| < 1 / 2 := lt_of_le_of_lt habs (by norm_num)
  rw [jsByteWrite]
  rcases le_or_lt 255 ((b : ℚ) + δ) with hge | hlt
  · have hb255 : b = 255 := by
      have h1 : (254 : ℚ) < b := by linarith
      have h2 : 254 < b := by exact_mod_cast h1
      omega
    subst hb255
    rw [min_eq_left hge, max_eq_right (by norm_num : (0 : ℚ) ≤ 255)]
    have hr : roundTiesToEven (255 : ℚ) = 255 := by
      have h := roundTiesToEven_int_add 255 0 (by norm_num)
      rw [add_zero] at h
      simpa using h
    rw [hr]
    rfl
  · rw [min_eq_right (le_of_lt hlt)]
    rcases le_or_lt ((b : ℚ) + δ) 0 with hle | hpos
    · have hb0 : b = 0 := by
        have h1 : (b : ℚ) < 1 := by linarith
        have h2 : b < 1 := by exact_mod_cast h1
        omega
      subst hb0
      rw [max_eq_left hle]
      have hr : roundTiesToEven (0 : ℚ) = 0 := by
        have h := roundTiesToEven_int_add 0 0 (by norm_num)
        rw [add_zero] at h
        simpa using h
      rw [hr]
      rfl
    · rw [max_eq_right (le_of_lt hpos)]
      have hcast : ((b : ℤ) : ℚ) = (b : ℚ) := by push_cast; rfl
      rw [show ((b : ℚ) + δ) = (((b : ℕ) : ℤ) : ℚ) + δ by push_cast; ring]
      rw [roundTiesToEven_int_add _ δ hdlt]
      exact Int.toNat_natCast b

theorem applyEdgeNoise_data_getElem? (seed : String) (img : ImageData) (j : ℕ) :
    (CanvasInterceptor.applyEdgeNoise seed img).data[j]? =
      if _ : j < img.data.length then
        some
          (if (CanvasInterceptor.detectEdges img).get? (j / 4) = some 1 ∧ j % 4 < 3 then
            jsByteWrite ((img.data.getD j 0 : ℚ) +
              CanvasInterceptor.noiseAt seed (j / 4 % img.width) (j / 4 / img.width) (j % 4))
          else img.data.getD j 0)
      else none := by
  rw [CanvasInterceptor.applyEdgeNoise]
  simp only [List.getElem?_map]
  by_cases hj : j < img.data.length
  · rw [List.getElem?_range hj]
    simp [hj]
  · have h1 : (List.range img.data.length)[j]? = none := by
      rw [List.getElem?_eq_none]
      simpa using le_of_not_lt hj
    rw [h1]
    simp [hj]

theorem list_map_range_getD (l : List ℕ) (f : ℕ → ℕ)
    (hf : ∀ j, j < l.length → f j = l.getD j 0) :
    (List.range l.length).map f = l := by
  apply List.ext_getElem?
  intro j
  rw [List.getElem?_map]
  by_cases hj : j < l.length
  · rw [List.getElem?_range hj]
    rw [Option.map_some', hf j hj, List.getD_eq_getElem?_getD, List.getElem?_eq_getElem hj]
    rfl
  · have h1 : (List.range l.length)[j]? = none := by
      rw [List.getElem?_eq_none]
      simpa using le_of_not_lt hj
    have h2 : l[j]? = none := List.getElem?_eq_none (le_of_not_lt hj)
    rw [h1, h2]
    rfl

/-- Every byte written back by `applyEdgeNoise` equals the byte it
replaces: the additive noise has magnitude at most `51/200 < 1/2`, so the
clamped ties-to-even store rounds the perturbed value back to the original
byte.  The whole noise pass is therefore byte-level inert on any buffer of
genuine bytes (≤ 255). -/
theorem applyEdgeNoise_eq_self (seed : String) (img : ImageData)
    (hb : ∀ b ∈ img.data, b ≤ 255) :
    CanvasInterceptor.applyEdgeNoise seed img = img := by
  obtain ⟨w, h, d⟩ := img
  rw [CanvasInterceptor.applyEdgeNoise]
  simp only [ImageData.mk.injEq, true_and]
  apply list_map_range_getD
  intro j hj
  by_cases hc : (CanvasInterceptor.detectEdges ⟨w, h, d⟩).get? (j / 4) = some 1 ∧ j % 4 < 3
  · simp only [hc, and_self, if_true, if_pos]
    apply jsByteWrite_int_add
    · have hmem : d.getD j 0 ∈ d := by
        rw [List.getD_eq_getElem?_getD, List.getElem?_eq_getElem hj]
        exact List.getElem_mem hj
      exact hb _ hmem
    · exact noiseAt_abs_le _ _ _ _
  · simp only [if_neg hc]

theorem list_set_self {α : Type} :
    ∀ (l : List α) (r : ℕ) (x : α), l.get? r = some x → l.set r x = l := by
  intro l
  induction l with
  | nil => intro r x hx; simp [List.get?] at hx
  | cons a t ih =>
    intro r x hx
    cases r with
    | zero =>
      simp only [List.get?] at hx
      cases hx
      rfl
    | succ n =>
      simp only [List.get?] at hx
      simp [List.set, ih n x hx]

theorem randomChoice_mem {α : Type} (seed : String) (l : List α) (i : ℕ)
    (hne : l ≠ []) (hlt : SeedManager.randomValue seed i < 1) :
    ∃ x ∈ l, SeedManager.randomChoice seed l i = some x := by
  have hpos : 0 < l.length := List.length_pos.mpr hne
  have h0 := randomValue_nonneg seed i
  have hint : SeedManager.randomInt seed 0 ((l.length : ℤ) - 1) i =
      ⌊SeedManager.randomValue seed i * (l.length : ℚ)⌋ := by
    rw [SeedManager.randomInt, add_zero]
    congr 1
    push_cast
    ring
  have hflt : ⌊SeedManager.randomValue seed i * (l.length : ℚ)⌋ < (l.length : ℤ) := by
    rw [Int.floor_lt]
    push_cast
    calc SeedManager.randomValue seed i * (l.length : ℚ)
        < 1 * (l.length : ℚ) := by
          apply mul_lt_mul_of_pos_right hlt
          exact_mod_cast hpos
      _ = (l.length : ℚ) := one_mul _
  have hfnn : 0 ≤ ⌊SeedManager.randomValue seed i * (l.length : ℚ)⌋ := by
    apply Int.floor_nonneg.mpr
    positivity
  have hk : (SeedManager.randomInt seed 0 ((l.length : ℤ) - 1) i).toNat < l.length := by
    rw [hint]
    omega
  refine ⟨l.get ⟨_, hk⟩, List.get_mem l _ hk, ?_⟩
  rw [SeedManager.randomChoice, if_neg (by simp [hne])]
  rw [List.get?_eq_get hk]

theorem randomWeightedChoice_singleton {α : Type} (seed : String) (x : α) (w : ℚ)
    (i : ℕ) (hw : 0 < w) :
    SeedManager.randomWeightedChoice seed [x] [w] i = some x := by
  have hle : SeedManager.randomValue seed i * (0 + w) - w ≤ 0 := by
    have := randomValue_le_one seed i
    have := randomValue_nonneg seed i
    nlinarith
  simp only [SeedManager.randomWeightedChoice, List.isEmpty_cons, Bool.false_eq_true,
    if_false, List.foldl_cons, List.foldl_nil, SeedManager.pickLoop, List.head?_cons,
    if_pos hle]

theorem getSeed_of_currentSeed (st : SMState) (s : String)
    (h1 : st.currentSeed = some s) (h2 : s ≠ "") :
    SeedManager.getSeed st = (s, st) := by
  rw [SeedManager.getSeed, h1]
  simp [jsTruthy, h2]

theorem random_state_eq (st : SMState) (s : String) (i : ℕ)
    (h1 : st.currentSeed = some s) (h2 : s ≠ "") :
    SeedManager.random st i = (SeedManager.randomValue s i, st) := by
  rw [SeedManager.random, getSeed_of_currentSeed st s h1 h2]

theorem jsMapSet_length_le (m : List (String × Option String)) (k : String)
    (v : Option String) : (jsMapSet m k v).length ≤ m.length + 1 := by
  rw [jsMapSet]
  split
  · rw [List.length_map]
    omega
  · rw [List.length_append, List.length_singleton]

theorem jsMapDelete_cons_head_length (p : String × Option String)
    (t : List (String × Option String)) :
    (jsMapDelete (p :: t) p.1).length ≤ t.length := by
  rw [jsMapDelete, List.filter_cons]
  have hp : (p.1 != p.1) = false := by simp
  rw [hp]
  simp only [Bool.false_eq_true, if_false]
  exact List.length_filter_le _ _

theorem jsMapSet_fresh (m : List (String × Option String)) (k : String)
    (v : Option String) (hfresh : m.all (fun p => p.1 != k) = true) :
    jsMapSet m k v = m ++ [(k, v)] := by
  rw [jsMapSet, if_neg]
  simp only [List.all_eq_true, bne_iff_ne, ne_eq] at hfresh
  simp only [List.any_eq_true, beq_iff_eq, not_exists, not_and]
  intro p hp
  exact hfresh p hp

theorem jsMapDelete_of_all_ne (m : List (String × Option String)) (k : String)
    (hne : m.all (fun p => p.1 != k) = true) :
    jsMapDelete m k = m := by
  rw [jsMapDelete]
  apply List.filter_eq_self.mpr
  simp only [List.all_eq_true] at hne
  exact hne

theorem randomValue_lt_one_of_ne (seed : String) (i : ℕ)
    (h : SeedManager.fnv1a (codeUnits (seed ++ "-" ++ Nat.repr i)) ≠ 4294967295) :
    SeedManager.randomValue seed i < 1 := by
  rw [randomValue_eq, div_lt_one (by norm_num)]
  have hlt := fnv1a_lt (codeUnits (seed ++ "-" ++ Nat.repr i))
  have h2 : SeedManager.fnv1a (codeUnits (seed ++ "-" ++ Nat.repr i)) < 4294967295 := by
    omega
  exact_mod_cast h2

theorem getCoreCount_i9_eq (seed s : String)
    (h9 : jsIncludes (jsToLower s) "i9" = true) :
    SpoofingEngine.getCoreCount seed (some s) =
      SeedManager.randomChoice seed [16, 20, 24, 32] 10 := by
  have hne : s ≠ "" := by
    intro he
    subst he
    exact absurd h9 (by decide)
  rw [SpoofingEngine.getCoreCount]
  simp only [if_neg hne, h9, Bool.true_or, if_true]

theorem getCoreCount_i5_eq (seed s : String)
    (h5 : jsIncludes (jsToLower s) "i5" = true)
    (h9 : jsIncludes (jsToLower s) "i9" = false)
    (hr9 : jsIncludes (jsToLower s) "ryzen 9" = false)
    (ht : jsIncludes (jsToLower s) "threadripper" = false)
    (h7 : jsIncludes (jsToLower s) "i7" = false)
    (hr7 : jsIncludes (jsToLower s) "ryzen 7" = false) :
    SpoofingEngine.getCoreCount seed (some s) =
      SeedManager.randomChoice seed [6, 8, 12] 12 := by
  have hne : s ≠ "" := by
    intro he
    subst he
    exact absurd h5 (by decide)
  rw [SpoofingEngine.getCoreCount]
  simp only [if_neg hne, h5, h9, hr9, ht, h7, hr7, Bool.or_self, Bool.false_or,
    Bool.true_or, Bool.or_false, Bool.false_eq_true, if_true, if_false]

theorem randomChoice_a10_eq : SeedManager.randomChoice "a" ([16, 20, 24, 32] : List ℕ) 10 =
    some 32 := by
  have hfnv : SeedManager.fnv1a (codeUnits ("a" ++ "-" ++ Nat.repr 10)) = 3477548546 := by
    decide
  rw [SeedManager.randomChoice, if_neg (by decide)]
  have hint : SeedManager.randomInt "a" 0 ((([16, 20, 24, 32] : List ℕ).length : ℤ) - 1) 10 =
      3 := by
    rw [SeedManager.randomInt, randomValue_eq, hfnv]
    norm_num
  rw [hint]
  rfl

theorem randomChoice_n9z192a12_eq :
    SeedManager.randomChoice "n9z192a" ([6, 8, 12] : List ℕ) 12 = none := by
  have hfnv : SeedManager.fnv1a (codeUnits ("n9z192a" ++ "-" ++ Nat.repr 12)) =
      4294967295 := by
    decide
  rw [SeedManager.randomChoice, if_neg (by decide)]
  have hint : SeedManager.randomInt "n9z192a" 0 ((([6, 8, 12] : List ℕ).length : ℤ) - 1) 12 =
      3 := by
    rw [SeedManager.randomInt, randomValue_eq, hfnv]
    norm_num
  rw [hint]
  rfl

/-- C1 counterexample: the claim is false at concrete inputs.  The draw is
normalised by `0xFFFFFFFF = 2^32 - 1`, not by `2^32`: for seed "a" and
index 0 the returned value differs from `hash / 2^32`.  Moreover the result
is not always `< 1`: for seed "3meyyka" and index 0 the 32-bit FNV-1a hash
of "3meyyka-0" is exactly `0xFFFFFFFF`, so the draw returns exactly 1,
outside `[0, 1)`. -/
theorem C1_counterexample :
    SeedManager.randomValue "3meyyka" 0 = 1 ∧
    SeedManager.randomValue "a" 0 ≠
      (SeedManager.fnv1a (codeUnits ("a" ++ "-" ++ Nat.repr 0)) : ℚ) / 4294967296 := by
  have h1 : SeedManager.fnv1a (codeUnits ("3meyyka" ++ "-" ++ Nat.repr 0)) = 4294967295 := by
    decide
  have h2 : SeedManager.fnv1a (codeUnits ("a" ++ "-" ++ Nat.repr 0)) = 3699991705 := by
    decide
  constructor
  · rw [randomValue_eq, h1]
    norm_num
  · rw [randomValue_eq, h2]
    norm_num

/-- C1 (amended): for every seed string and every index, `SeedManager.random`
returns the unsigned 32-bit FNV-1a hash of the canonical key "seed-index"
divided by `2^32 - 1` (not `2^32`), so the result always lies in the closed
interval `[0, 1]`; it equals 1 exactly when the hash is `0xFFFFFFFF`. -/
theorem C1_main (seed : String) (index : ℕ) :
    0 ≤ SeedManager.randomValue seed index ∧
    SeedManager.randomValue seed index ≤ 1 ∧
    SeedManager.randomValue seed index =
      (SeedManager.fnv1a (codeUnits (seed ++ "-" ++ Nat.repr index)) : ℚ) / 4294967295 :=
  ⟨randomValue_nonneg seed index, randomValue_le_one seed index, randomValue_eq seed index⟩

/-- C5 counterexample: the derived random operations do not report an
invalid-argument error.  An empty item list makes `randomChoice` and
`randomWeightedChoice` return `null` (modelled `none`), and `min > max`
makes `randomInt` silently return an ordinary integer: for seed "a",
`randomInt(5, 3, 0)` evaluates to 4. -/
theorem C5_counterexample :
    SeedManager.randomChoice "a" ([] : List ℕ) 0 = none ∧
    SeedManager.randomWeightedChoice "a" ([] : List ℕ) [] 0 = none ∧
    SeedManager.randomInt "a" 5 3 0 = 4 := by
  refine ⟨rfl, rfl, ?_⟩
  have h2 : SeedManager.fnv1a (codeUnits ("a" ++ "-" ++ Nat.repr 0)) = 3699991705 := by
    decide
  rw [SeedManager.randomInt, randomValue_eq, h2]
  norm_num

/-- C5 (amended): an empty item list yields the `null` sentinel (`none`)
from both choice operations — no error is raised — and a bounded-integer
request with `min > max` is silently coerced into an ordinary integer
`⌊draw * (max - min + 1)⌋ + min ≤ min`; no invalid-argument error exists
anywhere on these paths. -/
theorem C5_main (seed : String) (i : ℕ) (mn mx : ℤ) (ws : List ℚ) :
    SeedManager.randomChoice seed ([] : List ℕ) i = none ∧
    SeedManager.randomWeightedChoice seed ([] : List ℕ) ws i = none ∧
    (mx < mn → SeedManager.randomInt seed mn mx i ≤ mn) := by
  refine ⟨rfl, rfl, ?_⟩
  intro hlt
  rw [SeedManager.randomInt]
  have h0 := randomValue_nonneg seed i
  have hc : ((mx - mn + 1 : ℤ) : ℚ) ≤ 0 := by
    have : mx - mn + 1 ≤ 0 := by omega
    exact_mod_cast this
  have hprod : SeedManager.randomValue seed i * ((mx - mn + 1 : ℤ) : ℚ) ≤ 0 := by
    nlinarith
  have hf := Int.floor_nonpos hprod
  omega

/-- Witness for C5 (amended) at `min = 5 > 3 = max`, seed "a". -/
theorem C5_witness :
    (3 : ℤ) < 5 ∧ SeedManager.randomInt "a" 5 3 0 ≤ 5 :=
  ⟨by decide, (C5_main "a" 0 5 3 []).2.2 (by decide)⟩

/-- C7: with the session seed fixed (a truthy cached `currentSeed`), any
sequence of `SeedManager.random` calls leaves the manager state unchanged
and returns, at each position, the pure function of (seed, index) alone —
so repeated calls at one index are bit-identical and no interleaving of
indices can influence any result (both runs of any two call orders read off
the same `randomValue` values). -/
theorem C7_main (st : SMState) (s : String) (ixs : List ℕ)
    (h1 : st.currentSeed = some s) (h2 : s ≠ "") :
    runRandoms st ixs = (ixs.map (SeedManager.randomValue s), st) := by
  induction ixs with
  | nil => rfl
  | cons i rest ih =>
    simp only [runRandoms, random_state_eq st s i h1 h2, ih, List.map_cons]

/-- Witness for C7 at a concrete manager state and the interleaving
`[5, 1]`. -/
theorem C7_witness :
    (⟨some "a", [], "example.com", fun _ => 0, 0⟩ : SMState).currentSeed = some "a" ∧
    ("a" : String) ≠ "" ∧
    runRandoms ⟨some "a", [], "example.com", fun _ => 0, 0⟩ [5, 1] =
      ([SeedManager.randomValue "a" 5, SeedManager.randomValue "a" 1],
        ⟨some "a", [], "example.com", fun _ => 0, 0⟩) :=
  ⟨rfl, by decide, C7_main ⟨some "a", [], "example.com", fun _ => 0, 0⟩ "a" [5, 1] rfl
    (by decide)⟩

/-- C9: one `storeSeedInMemory` call preserves the 100-entry bound on the
in-memory domain map, and when a fresh domain is inserted into a full
(100-entry) map the oldest (first-inserted) entry is the one evicted. -/
theorem C9_main (st : SMState)
    (hlen : st.domainSeeds.length ≤ 100)
    (hnd : (st.domainSeeds.map Prod.fst).Nodup) :
    (SeedManager.storeSeedInMemory st).domainSeeds.length ≤ 100 ∧
    (st.domainSeeds.length = 100 →
      st.domainSeeds.all (fun p => p.1 != st.domain) = true →
      (SeedManager.storeSeedInMemory st).domainSeeds =
        st.domainSeeds.tail ++ [(st.domain, st.currentSeed)]) := by
  constructor
  · simp only [SeedManager.storeSeedInMemory]
    have hml := jsMapSet_length_le st.domainSeeds st.domain st.currentSeed
    generalize hm : jsMapSet st.domainSeeds st.domain st.currentSeed = m at hml
    rcases m with _ | ⟨p, t⟩
    · simp
    · by_cases hgt : 100 < (p :: t).length
      · rw [if_pos hgt]
        simp only [List.head?_cons]
        have h1 := jsMapDelete_cons_head_length p t
        simp only [List.length_cons] at hml
        omega
      · rw [if_neg hgt]
        omega
  · intro h100 hall
    have hset : jsMapSet st.domainSeeds st.domain st.currentSeed =
        st.domainSeeds ++ [(st.domain, st.currentSeed)] :=
      jsMapSet_fresh _ _ _ hall
    rcases hds : st.domainSeeds with _ | ⟨q, t⟩
    · rw [hds] at h100
      simp at h100
    · have ht99 : t.length = 99 := by
        rw [hds] at h100
        simpa using h100
      rw [hds] at hset hall hnd
      simp only [SeedManager.storeSeedInMemory, hset, hds, List.cons_append]
      rw [if_pos (by simp [ht99])]
      simp only [List.head?_cons]
      have hkeep : ∀ r ∈ t ++ [(st.domain, st.currentSeed)], (r.1 != q.1) = true := by
        intro r hr
        rcases List.mem_append.mp hr with hrt | hrk
        · simp only [List.map_cons, List.nodup_cons] at hnd
          have : q.1 ∉ t.map Prod.fst := hnd.1
          rw [bne_iff_ne]
          intro he
          exact this (he ▸ List.mem_map_of_mem Prod.fst hrt)
        · simp only [List.mem_singleton] at hrk
          subst hrk
          simp only [List.all_cons, Bool.and_eq_true, bne_iff_ne] at hall
          rw [bne_iff_ne]
          exact fun he => hall.1 he.symm
      rw [jsMapDelete, List.filter_cons]
      have hq : (q.1 != q.1) = false := by simp
      rw [hq]
      simp only [Bool.false_eq_true, if_false, List.tail_cons]
      exact List.filter_eq_self.mpr hkeep

/-- Witness for C9 at a concrete one-entry state. -/
theorem C9_witness :
    (([("x", some "s")] : List (String × Option String)).length ≤ 100) ∧
    (SeedManager.storeSeedInMemory
        ⟨some "s", [("x", some "s")], "example.com", fun _ => 0, 0⟩).domainSeeds.length ≤
      100 :=
  ⟨by decide,
    (C9_main ⟨some "s", [("x", some "s")], "example.com", fun _ => 0, 0⟩ (by decide)
      (by decide)).1⟩

/-- C2: the noise pass touches at most the R, G, B bytes of pixels whose
edge-map cell is 1; every byte of a pixel whose cell is not 1 — including
every border pixel, since only interior cells are ever set — and every
alpha byte (offset 3 mod 4) is returned exactly as it was; and an edge-map
cell equal to 1 implies the pixel is interior with squared Sobel gradient
magnitude above `900 = 30^2`. -/
theorem C2_main (seed : String) (img : ImageData) :
    (∀ j : ℕ,
      (j % 4 = 3 ∨ (CanvasInterceptor.detectEdges img).get? (j / 4) ≠ some 1) →
      (CanvasInterceptor.applyEdgeNoise seed img).data[j]? = img.data[j]?) ∧
    (∀ i : ℕ, (CanvasInterceptor.detectEdges img).get? i = some 1 →
      (1 ≤ i % img.width ∧ i % img.width + 1 < img.width ∧
        1 ≤ i / img.width ∧ i / img.width + 1 < img.height) ∧
      CanvasInterceptor.isEdge img (i % img.width) (i / img.width) = true) := by
  constructor
  · intro j hj
    rw [applyEdgeNoise_data_getElem?]
    by_cases hlt : j < img.data.length
    · rw [dif_pos hlt]
      have hcond : ¬((CanvasInterceptor.detectEdges img).get? (j / 4) = some 1 ∧
          j % 4 < 3) := by
        rintro ⟨he, h3⟩
        rcases hj with hj3 | hjne
        · omega
        · exact hjne he
      rw [if_neg hcond]
      rw [List.getD_eq_getElem?_getD, List.getElem?_eq_getElem hlt]
      rfl
    · rw [dif_neg hlt]
      exact (List.getElem?_eq_none (le_of_not_lt hlt)).symm
  · intro i hi
    rw [CanvasInterceptor.detectEdges, List.get?_eq_getElem?, List.getElem?_map] at hi
    by_cases hiw : i < img.width * img.height
    · rw [List.getElem?_range hiw, Option.map_some'] at hi
      simp only [Option.some.injEq] at hi
      by_cases hint : 1 ≤ i % img.width ∧ i % img.width + 1 < img.width ∧
          1 ≤ i / img.width ∧ i / img.width + 1 < img.height
      · refine ⟨hint, ?_⟩
        rw [if_pos hint] at hi
        by_cases he : CanvasInterceptor.isEdge img (i % img.width) (i / img.width) = true
        · exact he
        · rw [if_neg] at hi
          · omega
          · simpa using he
      · rw [if_neg hint] at hi
        omega
    · have : (List.range (img.width * img.height))[i]? = none := by
        rw [List.getElem?_eq_none]
        simpa using le_of_not_lt hiw
      rw [this] at hi
      simp at hi

/-- Witness for C2: the alpha byte (index 3) of a concrete 2x2 buffer is
returned unchanged. -/
theorem C2_witness :
    ((3 : ℕ) % 4 = 3 ∨
      (CanvasInterceptor.detectEdges
        ⟨2, 2, [10, 20, 30, 40, 50, 60, 70, 80, 90, 100, 110, 120, 130, 140, 150, 160]⟩).get?
          (3 / 4) ≠ some 1) ∧
    (CanvasInterceptor.applyEdgeNoise "a"
        ⟨2, 2, [10, 20, 30, 40, 50, 60, 70, 80, 90, 100, 110, 120, 130, 140, 150, 160]⟩).data[3]? =
      (⟨2, 2, [10, 20, 30, 40, 50, 60, 70, 80, 90, 100, 110, 120, 130, 140, 150, 160]⟩ :
        ImageData).data[3]? :=
  ⟨Or.inl (by decide),
    (C2_main "a" ⟨2, 2, [10, 20, 30, 40, 50, 60, 70, 80, 90, 100, 110, 120, 130, 140,
      150, 160]⟩).1 3 (Or.inl (by decide))⟩

/-- Concrete 3x3 RGBA buffer with a white left column: the centre pixel has
Sobel magnitude 1020 > 30, so it is classified as an edge and qualifies for
noise. -/
def img3x3 : ImageData :=
  ⟨3, 3, [255, 255, 255, 255, 0, 0, 0, 255, 0, 0, 0, 255,
          255, 255, 255, 255, 0, 0, 0, 255, 0, 0, 0, 255,
          255, 255, 255, 255, 0, 0, 0, 255, 0, 0, 0, 255]⟩

/-- C3 counterexample: on a buffer whose centre pixel qualifies for noise
(edge-map cell 4 holds 1), the call still hands back the very same
reference it was given (`return imageData`): no fresh copy is ever
allocated, and the write loop runs against the caller's own buffer.  The
claim that a new perturbed copy is returned whenever some pixel qualifies
is therefore false. -/
theorem C3_counterexample :
    (CanvasInterceptor.detectEdges img3x3).get? 4 = some 1 ∧
    (CanvasInterceptor.applyEdgeNoiseRef "a" [img3x3] 0).2 = 0 := by
  constructor
  · have hedge : CanvasInterceptor.isEdge img3x3 1 1 = true := by
      rw [CanvasInterceptor.isEdge, CanvasInterceptor.gradAt]
      simp only [img3x3, CanvasInterceptor.lumAt, CanvasInterceptor.sobelX,
        CanvasInterceptor.sobelY, List.range_succ, List.range_zero, List.foldl_append,
        List.foldl_cons, List.foldl_nil, List.get?]
      norm_num
    rw [CanvasInterceptor.detectEdges, List.get?_eq_getElem?, List.getElem?_map]
    rw [show img3x3.width * img3x3.height = 9 from rfl]
    rw [List.getElem?_range (by norm_num : 4 < 9)]
    simp only [Option.map_some']
    rw [show (4 : ℕ) % img3x3.width = 1 from rfl, show (4 : ℕ) / img3x3.width = 1 from rfl]
    rw [if_pos (by decide), hedge]
    rfl
  · rfl

/-- C3 (amended): the call always writes in place and returns the caller's
own reference — but every written byte coincides with the byte it
overwrites (the noise magnitude is at most 51/200, which the clamped
ties-to-even store rounds away), so after the call the caller's buffer
still holds its original byte values and the heap is unchanged. -/
theorem C3_main (seed : String) (heap : List ImageData) (r : ℕ) (img : ImageData)
    (h1 : heap.get? r = some img) (h2 : ∀ b ∈ img.data, b ≤ 255) :
    CanvasInterceptor.applyEdgeNoiseRef seed heap r = (heap, r) := by
  rw [List.get?_eq_getElem?] at h1
  simp only [CanvasInterceptor.applyEdgeNoiseRef, List.get?_eq_getElem?, h1]
  rw [applyEdgeNoise_eq_self seed img h2]
  rw [list_set_self heap r img (by rw [List.get?_eq_getElem?]; exact h1)]

/-- Witness for C3 (amended) at a concrete one-object heap. -/
theorem C3_witness :
    (([⟨1, 1, [0, 0, 0, 0]⟩] : List ImageData).get? 0 = some ⟨1, 1, [0, 0, 0, 0]⟩) ∧
    CanvasInterceptor.applyEdgeNoiseRef "a" [⟨1, 1, [0, 0, 0, 0]⟩] 0 =
      ([⟨1, 1, [0, 0, 0, 0]⟩], 0) :=
  ⟨rfl, C3_main "a" [⟨1, 1, [0, 0, 0, 0]⟩] 0 ⟨1, 1, [0, 0, 0, 0]⟩ rfl (by decide)⟩

/-- C4 counterexample: a malformed buffer (2x2 declared, only 3 bytes) is
returned unchanged, but no diagnostic whatsoever is reported — the noise
path contains no dimension check and no warning call, so the diagnostic
list is empty, contradicting the claimed "report a diagnostic". -/
theorem C4_counterexample :
    ((⟨2, 2, [7, 8, 9]⟩ : ImageData).width * (⟨2, 2, [7, 8, 9]⟩ : ImageData).height * 4 ≠
      (⟨2, 2, [7, 8, 9]⟩ : ImageData).data.length) ∧
    CanvasInterceptor.applyEdgeNoiseWithDiagnostics "a" ⟨2, 2, [7, 8, 9]⟩ =
      (⟨2, 2, [7, 8, 9]⟩, []) := by
  refine ⟨by decide, ?_⟩
  rw [CanvasInterceptor.applyEdgeNoiseWithDiagnostics,
    applyEdgeNoise_eq_self "a" ⟨2, 2, [7, 8, 9]⟩ (by decide)]

/-- C4 (amended): a malformed buffer (declared width x height x 4 differing
from the byte length) never makes the call throw — out-of-range typed-array
reads merely poison the Sobel sums into NaN, which classifies no pixel as
an edge — and the original buffer is returned with identical bytes; but no
diagnostic is reported: the diagnostic list is empty because no dimension
check exists. -/
theorem C4_main (seed : String) (img : ImageData)
    (_hmal : img.width * img.height * 4 ≠ img.data.length)
    (hb : ∀ b ∈ img.data, b ≤ 255) :
    CanvasInterceptor.applyEdgeNoiseWithDiagnostics seed img = (img, []) := by
  rw [CanvasInterceptor.applyEdgeNoiseWithDiagnostics, applyEdgeNoise_eq_self seed img hb]

/-- Witness for C4 (amended) at a concrete malformed buffer. -/
theorem C4_witness :
    ((⟨4, 1, [1, 2, 3]⟩ : ImageData).width * (⟨4, 1, [1, 2, 3]⟩ : ImageData).height * 4 ≠
      (⟨4, 1, [1, 2, 3]⟩ : ImageData).data.length) ∧
    CanvasInterceptor.applyEdgeNoiseWithDiagnostics "s" ⟨4, 1, [1, 2, 3]⟩ =
      (⟨4, 1, [1, 2, 3]⟩, []) :=
  ⟨by decide, C4_main "s" ⟨4, 1, [1, 2, 3]⟩ (by decide) (by decide)⟩

/-- Catalog archetype whose `platform` field disagrees with its OS table:
the synthesiser copies `platform` verbatim from the archetype, so the
generated profile pairs a Windows OS name with a Macintosh platform
string. -/
def archC6 : Archetype :=
  ⟨"Desktop X", 1, "MacIntel", [("Windows 11", 100)], ⟨none, none, none⟩⟩

/-- C6 counterexample: the platform string is not derived from the chosen
OS through any lookup table — it is the archetype's own `platform` field.
For a catalog archetype carrying `platform = "MacIntel"` with an
all-Windows OS table, the generated profile has `os.name` containing
"Windows" yet `platform ≠ "Win32"`. -/
theorem C6_counterexample :
    (SpoofingEngine.selectOS "a" archC6).name = some "Windows 11" ∧
    jsIncludes "Windows 11" "Windows" = true ∧
    (SpoofingEngine.selectOS "a" archC6).platform ≠ "Win32" := by
  refine ⟨?_, by decide, by decide⟩
  show SeedManager.randomWeightedChoice "a" ["Windows 11"] [100] 1 = some "Windows 11"
  exact randomWeightedChoice_singleton "a" "Windows 11" 100 1 (by norm_num)

/-- C6 (amended): the profile's `platform` is copied verbatim from the
archetype record (never derived from the chosen OS name), while `vendor`
is the fixed lookup on `os.name` (macOS maps to Apple, everything else to
Google); consequently "Windows implies Win32" holds exactly when the
archetype's own `platform` field is "Win32" — as it is for the built-in
default archetype, for which every seed yields `os.name = "Windows 11"`
and `platform = "Win32"`. -/
theorem C6_main (seed : String) (a : Archetype) :
    (SpoofingEngine.selectOS seed a).platform = a.platform ∧
    (SpoofingEngine.selectOS seed SpoofingEngine.defaultArchetype).name =
      some "Windows 11" ∧
    (SpoofingEngine.selectOS seed SpoofingEngine.defaultArchetype).platform = "Win32" ∧
    SpoofingEngine.getVendor (some "Windows 11") = "Google Inc." ∧
    SpoofingEngine.getVendor (some "macOS Sonoma") = "Apple Computer, Inc." := by
  refine ⟨rfl, ?_, rfl, by decide, by decide⟩
  show SeedManager.randomWeightedChoice seed ["Windows 11"] [100] 1 = some "Windows 11"
  exact randomWeightedChoice_singleton seed "Windows 11" 100 1 (by norm_num)

/-- Catalog archetype whose single CPU option contains both "i9" and "i5";
the tier dispatch tests "i9" first. -/
def archC8 : Archetype :=
  ⟨"X", 1, "Win32", [("Windows 11", 100)],
    ⟨some [("Intel Core i9 i5", 100)], none, none⟩⟩

/-- C8 counterexample, in two parts.  (1) The spec's own sample scenario
fails for some seed: with the default catalog (single archetype, CPU
"Intel Core i5" at weight 100) and seed "n9z192a", the FNV-1a hash of
"n9z192a-12" is exactly `0xFFFFFFFF`, the draw is 1, the choice index is
3, and `[6, 8, 12][3]` is `undefined` — so `hardwareConcurrency` is not an
element of {6, 8, 12}.  (2) The universal reading also fails by substring
precedence: a selected CPU string containing "i5" but also "i9" is
dispatched to the i9 tier, yielding 32 for seed "a". -/
theorem C8_counterexample :
    (SpoofingEngine.selectHardware "n9z192a" SpoofingEngine.defaultArchetype).cpu =
      some "Intel Core i5" ∧
    jsIncludes (jsToLower "Intel Core i5") "i5" = true ∧
    (SpoofingEngine.selectHardware "n9z192a"
        SpoofingEngine.defaultArchetype).hardwareConcurrency ∉
      ([some 6, some 8, some 12] : List (Option ℕ)) ∧
    (SpoofingEngine.selectHardware "a" archC8).cpu = some "Intel Core i9 i5" ∧
    jsIncludes (jsToLower "Intel Core i9 i5") "i5" = true ∧
    (SpoofingEngine.selectHardware "a" archC8).hardwareConcurrency ∉
      ([some 6, some 8, some 12] : List (Option ℕ)) := by
  have hwc1 : SeedManager.randomWeightedChoice "n9z192a" ["Intel Core i5"] [100] 2 =
      some "Intel Core i5" :=
    randomWeightedChoice_singleton "n9z192a" "Intel Core i5" 100 2 (by norm_num)
  have hwc2 : SeedManager.randomWeightedChoice "a" ["Intel Core i9 i5"] [100] 2 =
      some "Intel Core i9 i5" :=
    randomWeightedChoice_singleton "a" "Intel Core i9 i5" 100 2 (by norm_num)
  refine ⟨hwc1, by decide, ?_, hwc2, by decide, ?_⟩
  · show SpoofingEngine.getCoreCount "n9z192a"
      (SeedManager.randomWeightedChoice "n9z192a" ["Intel Core i5"] [100] 2) ∉
        ([some 6, some 8, some 12] : List (Option ℕ))
    rw [hwc1]
    rw [getCoreCount_i5_eq "n9z192a" "Intel Core i5" (by decide) (by decide) (by decide)
      (by decide) (by decide) (by decide)]
    rw [randomChoice_n9z192a12_eq]
    decide
  · show SpoofingEngine.getCoreCount "a"
      (SeedManager.randomWeightedChoice "a" ["Intel Core i9 i5"] [100] 2) ∉
        ([some 6, some 8, some 12] : List (Option ℕ))
    rw [hwc2]
    rw [getCoreCount_i9_eq "a" "Intel Core i9 i5" (by decide)]
    rw [randomChoice_a10_eq]
    decide

/-- C8 (amended): whenever the selected CPU string contains "i5" and none
of the earlier-dispatched tier substrings ("i9", "ryzen 9",
"threadripper", "i7", "ryzen 7"), and the index-12 hash is not the extreme
value `0xFFFFFFFF` (draw < 1), the profile's `hardwareConcurrency` is an
element of the i5 tier set {6, 8, 12}; the recorded `hardware.cpu` is by
construction the selected CPU string itself. -/
theorem C8_main (seed : String) (a : Archetype) (s : String)
    (hcpu : (SpoofingEngine.selectHardware seed a).cpu = some s)
    (h5 : jsIncludes (jsToLower s) "i5" = true)
    (h9 : jsIncludes (jsToLower s) "i9" = false)
    (hr9 : jsIncludes (jsToLower s) "ryzen 9" = false)
    (ht : jsIncludes (jsToLower s) "threadripper" = false)
    (h7 : jsIncludes (jsToLower s) "i7" = false)
    (hr7 : jsIncludes (jsToLower s) "ryzen 7" = false)
    (hok : SeedManager.fnv1a (codeUnits (seed ++ "-" ++ Nat.repr 12)) ≠ 4294967295) :
    (SpoofingEngine.selectHardware seed a).hardwareConcurrency ∈
      ([some 6, some 8, some 12] : List (Option ℕ)) := by
  have hlt : SeedManager.randomValue seed 12 < 1 := randomValue_lt_one_of_ne seed 12 hok
  rcases htbl : a.hardware.cpu with _ | tbl
  · rw [SpoofingEngine.selectHardware] at hcpu
    simp only [htbl] at hcpu
    exact Option.noConfusion hcpu
  · rw [SpoofingEngine.selectHardware] at hcpu ⊢
    simp only [htbl] at hcpu ⊢
    rw [hcpu, getCoreCount_i5_eq seed s h5 h9 hr9 ht h7 hr7]
    obtain ⟨x, hx, heq⟩ := randomChoice_mem seed [6, 8, 12] 12 (by simp) hlt
    rw [heq]
    fin_cases hx <;> simp

/-- Witness for C8 (amended): the spec's sample scenario with seed "a". -/
theorem C8_witness :
    (SpoofingEngine.selectHardware "a" SpoofingEngine.defaultArchetype).cpu =
      some "Intel Core i5" ∧
    (SpoofingEngine.selectHardware "a" SpoofingEngine.defaultArchetype).hardwareConcurrency ∈
      ([some 6, some 8, some 12] : List (Option ℕ)) :=
  have hcpu : (SpoofingEngine.selectHardware "a" SpoofingEngine.defaultArchetype).cpu =
      some "Intel Core i5" :=
    randomWeightedChoice_singleton "a" "Intel Core i5" 100 2 (by norm_num)
  ⟨hcpu, C8_main "a" SpoofingEngine.defaultArchetype "Intel Core i5" hcpu (by decide)
    (by decide) (by decide) (by decide) (by decide) (by decide) (by decide)⟩

/-- C10 counterexample, in two parts.  (1) An Apple-silicon marker does not
force 8 cores: "Apple M1 i9" contains "m1" but is dispatched to the i9
tier (checked first), yielding 32 for seed "a".  (2) The finite-set clause
fails at an extreme seed: for seed "n9z192a" the index-12 draw is exactly 1
and the i5-tier element access is out of range, so `getCoreCount` for
"Intel Core i5" is `undefined` (`none`), not a member of
{2, 4, 6, 8, 12, 16, 20, 24, 32}. -/
theorem C10_counterexample :
    jsIncludes (jsToLower "Apple M1 i9") "m1" = true ∧
    SpoofingEngine.getCoreCount "a" (some "Apple M1 i9") ≠ some 8 ∧
    SpoofingEngine.getCoreCount "n9z192a" (some "Intel Core i5") ∉
      ([some 2, some 4, some 6, some 8, some 12, some 16, some 20, some 24, some 32] :
        List (Option ℕ)) := by
  refine ⟨by decide, ?_, ?_⟩
  · rw [getCoreCount_i9_eq "a" "Apple M1 i9" (by decide), randomChoice_a10_eq]
    decide
  · rw [getCoreCount_i5_eq "n9z192a" "Intel Core i5" (by decide) (by decide) (by decide)
      (by decide) (by decide) (by decide), randomChoice_n9z192a12_eq]
    decide

/-- C10 (amended): a missing or empty CPU string yields exactly 4 for every
seed; a CPU string matching none of the recognised tier substrings yields
exactly 4 for every seed; a CPU string containing an Apple-silicon marker
(m1/m2/m3) and none of the earlier-dispatched tier substrings yields
exactly 8 for every seed (both constant tiers consume no draw); and
whenever none of the tier draws (indices 10-14) hits the extreme hash
`0xFFFFFFFF`, every core count lies in the finite set
{2, 4, 6, 8, 12, 16, 20, 24, 32}. -/
theorem C10_main (seed : String) :
    SpoofingEngine.getCoreCount seed none = some 4 ∧
    SpoofingEngine.getCoreCount seed (some "") = some 4 ∧
    (∀ s : String,
      jsIncludes (jsToLower s) "i9" = false → jsIncludes (jsToLower s) "ryzen 9" = false →
      jsIncludes (jsToLower s) "threadripper" = false →
      jsIncludes (jsToLower s) "i7" = false → jsIncludes (jsToLower s) "ryzen 7" = false →
      jsIncludes (jsToLower s) "i5" = false → jsIncludes (jsToLower s) "ryzen 5" = false →
      jsIncludes (jsToLower s) "i3" = false → jsIncludes (jsToLower s) "ryzen 3" = false →
      jsIncludes (jsToLower s) "m1" = false → jsIncludes (jsToLower s) "m2" = false →
      jsIncludes (jsToLower s) "m3" = false → jsIncludes (jsToLower s) "celeron" = false →
      jsIncludes (jsToLower s) "pentium" = false →
      SpoofingEngine.getCoreCount seed (some s) = some 4) ∧
    (∀ s : String,
      (jsIncludes (jsToLower s) "m1" = true ∨ jsIncludes (jsToLower s) "m2" = true ∨
        jsIncludes (jsToLower s) "m3" = true) →
      jsIncludes (jsToLower s) "i9" = false → jsIncludes (jsToLower s) "ryzen 9" = false →
      jsIncludes (jsToLower s) "threadripper" = false →
      jsIncludes (jsToLower s) "i7" = false → jsIncludes (jsToLower s) "ryzen 7" = false →
      jsIncludes (jsToLower s) "i5" = false → jsIncludes (jsToLower s) "ryzen 5" = false →
      jsIncludes (jsToLower s) "i3" = false → jsIncludes (jsToLower s) "ryzen 3" = false →
      SpoofingEngine.getCoreCount seed (some s) = some 8) ∧
    (SeedManager.fnv1a (codeUnits (seed ++ "-" ++ Nat.repr 10)) ≠ 4294967295 →
     SeedManager.fnv1a (codeUnits (seed ++ "-" ++ Nat.repr 11)) ≠ 4294967295 →
     SeedManager.fnv1a (codeUnits (seed ++ "-" ++ Nat.repr 12)) ≠ 4294967295 →
     SeedManager.fnv1a (codeUnits (seed ++ "-" ++ Nat.repr 13)) ≠ 4294967295 →
     SeedManager.fnv1a (codeUnits (seed ++ "-" ++ Nat.repr 14)) ≠ 4294967295 →
      ∀ c : Option String, SpoofingEngine.getCoreCount seed c ∈
        ([some 2, some 4, some 6, some 8, some 12, some 16, some 20, some 24, some 32] :
          List (Option ℕ))) := by
  refine ⟨rfl, by simp [SpoofingEngine.getCoreCount], ?_, ?_, ?_⟩
  · intro s h1 h2 h3 h4 h5 h6 h7 h8 h9 h10 h11 h12 h13 h14
    by_cases hs : s = ""
    · simp [hs, SpoofingEngine.getCoreCount]
    · rw [SpoofingEngine.getCoreCount]
      simp only [if_neg hs, h1, h2, h3, h4, h5, h6, h7, h8, h9, h10, h11, h12, h13, h14,
        Bool.or_self, Bool.or_false, Bool.false_or, Bool.false_eq_true, if_false]
  · intro s hm h1 h2 h3 h4 h5 h6 h7 h8 h9
    have hs : s ≠ "" := by
      intro he
      subst he
      rcases hm with h | h | h <;> exact absurd h (by decide)
    rw [SpoofingEngine.getCoreCount]
    simp only [if_neg hs, h1, h2, h3, h4, h5, h6, h7, h8, h9, Bool.or_self, Bool.or_false,
      Bool.false_or, Bool.false_eq_true, if_false]
    rcases hm with h | h | h <;>
      simp only [h, Bool.true_or, Bool.or_true, Bool.false_or, if_true]
  · intro hok10 hok11 hok12 hok13 hok14 c
    have hlt10 := randomValue_lt_one_of_ne seed 10 hok10
    have hlt11 := randomValue_lt_one_of_ne seed 11 hok11
    have hlt12 := randomValue_lt_one_of_ne seed 12 hok12
    have hlt13 := randomValue_lt_one_of_ne seed 13 hok13
    have hlt14 := randomValue_lt_one_of_ne seed 14 hok14
    have hmem : ∀ (l : List ℕ) (i : ℕ), l ≠ [] → SeedManager.randomValue seed i < 1 →
        (∀ x ∈ l, some x ∈
          ([some 2, some 4, some 6, some 8, some 12, some 16, some 20, some 24, some 32] :
            List (Option ℕ))) →
        SeedManager.randomChoice seed l i ∈
          ([some 2, some 4, some 6, some 8, some 12, some 16, some 20, some 24, some 32] :
            List (Option ℕ)) := by
      intro l i hne hlt hsub
      obtain ⟨x, hx, heq⟩ := randomChoice_mem seed l i hne hlt
      rw [heq]
      exact hsub x hx
    rcases c with _ | s
    · exact (by decide :
        (some 4 : Option ℕ) ∈
          ([some 2, some 4, some 6, some 8, some 12, some 16, some 20, some 24, some 32] :
            List (Option ℕ)))
    · by_cases hs : s = ""
      · simp [hs, SpoofingEngine.getCoreCount]
      · rw [SpoofingEngine.getCoreCount]
        rw [if_neg hs]
        dsimp only
        split
        · exact hmem [16, 20, 24, 32] 10 (by simp) hlt10 (by decide)
        · split
          · exact hmem [8, 12, 16] 11 (by simp) hlt11 (by decide)
          · split
            · exact hmem [6, 8, 12] 12 (by simp) hlt12 (by decide)
            · split
              · exact hmem [4, 6] 13 (by simp) hlt13 (by decide)
              · split
                · decide
                · split
                  · exact hmem [2, 4] 14 (by simp) hlt14 (by decide)
                  · decide

/-- Witness for C10 (amended) at seed "a", with an unrecognised CPU
string, an Apple-silicon CPU string, and an i7 CPU string. -/
theorem C10_witness :
    jsIncludes (jsToLower "SuperChip 9000") "i9" = false ∧
    SpoofingEngine.getCoreCount "a" (some "SuperChip 9000") = some 4 ∧
    SpoofingEngine.getCoreCount "a" (some "Apple M2") = some 8 ∧
    SpoofingEngine.getCoreCount "a" (some "Intel Core i7-9700K") ∈
      ([some 2, some 4, some 6, some 8, some 12, some 16, some 20, some 24, some 32] :
        List (Option ℕ)) :=
  ⟨by decide,
    (C10_main "a").2.2.1 "SuperChip 9000" (by decide) (by decide) (by decide) (by decide)
      (by decide) (by decide) (by decide) (by decide) (by decide) (by decide) (by decide)
      (by decide) (by decide) (by decide),
    (C10_main "a").2.2.2.1 "Apple M2" (Or.inr (Or.inl (by decide))) (by decide)
      (by decide) (by decide) (by decide) (by decide) (by decide) (by decide) (by decide)
      (by decide),
    (C10_main "a").2.2.2.2 (by decide) (by decide) (by decide) (by decide) (by decide)
      (some "Intel Core i7-9700K")⟩
